import Mathlib

/-!
Verification of `location_history_json_converter.py`: a one-shot converter
from a Google location-history JSON export to a GeoJSON FeatureCollection.

The embedding models the parsed JSON value tree as the inductive `Json`
(objects keep their entries as an ordered association list, as a parsed
Python dict does), Python numbers as exact rationals, and every Python
operation that can raise as a computation in `Except PyError`.
-/

/-- A parsed JSON value, as handed to `_extract_locations` by `json.loads`.
Objects are ordered association lists; a dict produced by `json.loads`
has pairwise-distinct keys. -/
inductive Json where
  | null
  | bool (b : Bool)
  | num (q : ℚ)
  | str (s : String)
  | arr (elts : List Json)
  | obj (entries : List (String × Json))

mutual

/-- Boolean equality on JSON values, recursing through the two nested
list positions (no deriving handler applies to the nested inductive). -/
def jsonEqb : Json → Json → Bool
  | .obj a, .obj b => jsonFieldsEqb a b
  | .arr a, .arr b => jsonElemsEqb a b
  | .str a, .str b => decide (a = b)
  | .num a, .num b => decide (a = b)
  | .bool a, .bool b => decide (a = b)
  | .null, .null => true
  | _, _ => false

/-- Boolean equality on the element list of a JSON array. -/
def jsonElemsEqb : List Json → List Json → Bool
  | x :: xs, y :: ys => jsonEqb x y && jsonElemsEqb xs ys
  | [], [] => true
  | _, _ => false

/-- Boolean equality on the entry list of a JSON object. -/
def jsonFieldsEqb : List (String × Json) → List (String × Json) → Bool
  | e :: es, f :: fs =>
    decide (e.1 = f.1) && jsonEqb e.2 f.2 && jsonFieldsEqb es fs
  | [], [] => true
  | _, _ => false

end

mutual

/-- `jsonEqb` accepts every reflexive pair. -/
def jsonEqb_rfl : ∀ a : Json, jsonEqb a a = true
  | .obj a => by simpa [jsonEqb] using jsonFieldsEqb_rfl a
  | .arr a => by simpa [jsonEqb] using jsonElemsEqb_rfl a
  | .str _ => by simp [jsonEqb]
  | .num _ => by simp [jsonEqb]
  | .bool _ => by simp [jsonEqb]
  | .null => rfl

/-- `jsonElemsEqb` accepts every reflexive pair. -/
def jsonElemsEqb_rfl : ∀ xs : List Json, jsonElemsEqb xs xs = true
  | x :: xs => by
    have hx := jsonEqb_rfl x
    have hxs := jsonElemsEqb_rfl xs
    simp [jsonElemsEqb, hx, hxs]
  | [] => rfl

/-- `jsonFieldsEqb` accepts every reflexive pair. -/
def jsonFieldsEqb_rfl : ∀ es : List (String × Json), jsonFieldsEqb es es = true
  | e :: es => by
    have he := jsonEqb_rfl e.2
    have hes := jsonFieldsEqb_rfl es
    simp [jsonFieldsEqb, he, hes]
  | [] => rfl

end

mutual

/-- `jsonEqb` accepts only equal values. -/
def jsonEqb_sound : ∀ a b : Json, jsonEqb a b = true → a = b
  | .obj a, .obj b, h => by
    rw [jsonFieldsEqb_sound a b (by simpa [jsonEqb] using h)]
  | .arr a, .arr b, h => by
    rw [jsonElemsEqb_sound a b (by simpa [jsonEqb] using h)]
  | .str a, .str b, h => by
    rw [show a = b by simpa [jsonEqb] using h]
  | .num a, .num b, h => by
    rw [show a = b by simpa [jsonEqb] using h]
  | .bool a, .bool b, h => by
    rw [show a = b by simpa [jsonEqb] using h]
  | .null, .null, _ => rfl
  | .null, .bool _, h | .null, .num _, h | .null, .str _, h
  | .null, .arr _, h | .null, .obj _, h
  | .bool _, .null, h | .bool _, .num _, h | .bool _, .str _, h
  | .bool _, .arr _, h | .bool _, .obj _, h
  | .num _, .null, h | .num _, .bool _, h | .num _, .str _, h
  | .num _, .arr _, h | .num _, .obj _, h
  | .str _, .null, h | .str _, .bool _, h | .str _, .num _, h
  | .str _, .arr _, h | .str _, .obj _, h
  | .arr _, .null, h | .arr _, .bool _, h | .arr _, .num _, h
  | .arr _, .str _, h | .arr _, .obj _, h
  | .obj _, .null, h | .obj _, .bool _, h | .obj _, .num _, h
  | .obj _, .str _, h | .obj _, .arr _, h => by
    exact absurd h (by simp [jsonEqb])

/-- `jsonElemsEqb` accepts only equal lists. -/
def jsonElemsEqb_sound : ∀ xs ys : List Json, jsonElemsEqb xs ys = true → xs = ys
  | x :: xs, y :: ys, h => by
    have hp : jsonEqb x y = true ∧ jsonElemsEqb xs ys = true := by
      simpa [jsonElemsEqb, Bool.and_eq_true] using h
    rw [jsonEqb_sound x y hp.1, jsonElemsEqb_sound xs ys hp.2]
  | [], [], _ => rfl
  | [], _ :: _, h => by exact absurd h (by simp [jsonElemsEqb])
  | _ :: _, [], h => by exact absurd h (by simp [jsonElemsEqb])

/-- `jsonFieldsEqb` accepts only equal entry lists. -/
def jsonFieldsEqb_sound :
    ∀ es fs : List (String × Json), jsonFieldsEqb es fs = true → es = fs
  | e :: es, f :: fs, h => by
    have hp : (e.1 = f.1 ∧ jsonEqb e.2 f.2 = true) ∧
        jsonFieldsEqb es fs = true := by
      simpa [jsonFieldsEqb, Bool.and_eq_true] using h
    have hv := jsonEqb_sound e.2 f.2 hp.1.2
    have hef : e = f := Prod.ext hp.1.1 hv
    rw [hef, jsonFieldsEqb_sound es fs hp.2]
  | [], [], _ => rfl
  | [], _ :: _, h => by exact absurd h (by simp [jsonFieldsEqb])
  | _ :: _, [], h => by exact absurd h (by simp [jsonFieldsEqb])

end

instance : DecidableEq Json := fun a b =>
  if h : jsonEqb a b = true then .isTrue (jsonEqb_sound a b h)
  else .isFalse (fun heq => h (heq ▸ jsonEqb_rfl a))

deriving instance DecidableEq for Except

/-- The Python exceptions the modelled code can raise.  `systemExit`
(raised by `argparse.error`) subclasses `BaseException` only; the others
subclass `Exception` and are caught by an `except Exception` clause. -/
inductive PyError where
  | valueError
  | typeError
  | keyError
  | attributeError
  | unboundLocalError
  | systemExit
deriving DecidableEq

/-- Whether `except Exception` catches this error (everything except
`SystemExit`). -/
def PyError.isException : PyError → Bool
  | .systemExit => false
  | _ => true

/-- Key lookup in a dict's entry list (`d[k]` / `k in d` on a dict). -/
def lookupKey : List (String × Json) → String → Option Json
  | [], _ => none
  | (k', v) :: rest, k => if k' = k then some v else lookupKey rest k

/-- `d.get(k, default)` on a dict's entry list. -/
def getD (kvs : List (String × Json)) (k : String) (d : Json) : Json :=
  (lookupKey kvs k).getD d

/-- Python `str.split(sep)` for a one-character separator, on the
character list: always at least one (possibly empty) part. -/
def splitOnChar (c : Char) : List Char → List (List Char)
  | [] => [[]]
  | x :: rest =>
    match splitOnChar c rest with
    | [] => if x = c then [[], []] else [[x]]
    | h :: t => if x = c then [] :: h :: t else (x :: h) :: t

/-- Python substring test `needle in hay` on character lists. -/
def isSubstring (needle : List Char) : List Char → Bool
  | [] => needle.isEmpty
  | c :: rest => needle.isPrefixOf (c :: rest) || isSubstring needle rest

/-- The Python membership test `k in v` for a string `k`: key lookup on a
dict, substring test on a string, element equality on a list, and a
`TypeError` on anything not iterable. -/
def pyContains (v : Json) (k : String) : Except PyError Bool :=
  match v with
  | .obj kvs => .ok (lookupKey kvs k).isSome
  | .str s => .ok (isSubstring k.data s.data)
  | .arr xs => .ok (xs.any (fun x => jsonEqb x (Json.str k)))
  | _ => .error .typeError

/-- The Python subscript `v[k]` for a string key `k`: only a dict accepts
it (`KeyError` when absent); strings and lists want integer indices. -/
def pyGetItem (v : Json) (k : String) : Except PyError Json :=
  match v with
  | .obj kvs =>
    match lookupKey kvs k with
    | some w => .ok w
    | none => .error .keyError
  | _ => .error .typeError

/-- The Python call `v.get(k, default)`: only a dict has `.get`. -/
def pyGet (v : Json) (k : String) (d : Json) : Except PyError Json :=
  match v with
  | .obj kvs => .ok (getD kvs k d)
  | _ => .error .attributeError

/-- The Python loop head `for x in v`: a list yields its elements, a dict
its keys, a string its characters (as one-character strings); anything
else raises `TypeError`. -/
def pyIter : Json → Except PyError (List Json)
  | .arr xs => .ok xs
  | .obj kvs => .ok (kvs.map (fun e => Json.str e.1))
  | .str s => .ok (s.data.map (fun c => Json.str (String.mk [c])))
  | _ => .error .typeError

/-- The expression `v / 1e7` from the E7 branch: defined on numbers (and
bools, which Python treats as 0/1); `TypeError` otherwise. -/
def pyDivE7 : Json → Except PyError ℚ
  | .num q => .ok (q / 10000000)
  | .bool b => .ok ((if b then 1 else 0) / 10000000)
  | _ => .error .typeError

/-! ### `_parse_latlng` -/

/-- `re.sub(r'[^\d.,\-]', '', latlng.replace('°', ''))`: replacing the
one-character pattern `'°'` by the empty string removes each occurrence
of that character, and the substitution then drops every character that
is not a digit, dot, comma or minus. -/
def cleanLatLng (s : String) : List Char :=
  ((s.data.filter (fun c => !(c = '°'))).filter
    (fun c => c.isDigit || c = '.' || c = ',' || c = '-'))

/-- Value of a digit string, `List Char` form. -/
def digitsVal (cs : List Char) : ℕ :=
  cs.foldl (fun a c => a * 10 + (c.toNat - 48)) 0

/-- Python `float()` on a sign-free string drawn from the cleaned
alphabet (digits, `.`, `-`): digits with at most one dot and at least one
digit somewhere. -/
def pyFloatCore (cs : List Char) : Option ℚ :=
  match splitOnChar '.' cs with
  | [ds] =>
    if ds ≠ [] ∧ ds.all Char.isDigit then some (digitsVal ds) else none
  | [ip, fp] =>
    if (ip ≠ [] ∨ fp ≠ []) ∧ ip.all Char.isDigit ∧ fp.all Char.isDigit then
      some ((digitsVal ip : ℚ) + (digitsVal fp : ℚ) / (10 : ℚ) ^ fp.length)
    else none
  | _ => none

/-- Python `float()` on a string over the cleaned alphabet: an optional
leading minus, then an unsigned float. -/
def pyFloat : List Char → Option ℚ
  | '-' :: rest => (pyFloatCore rest).map Neg.neg
  | cs => pyFloatCore cs

/-- The body of `_parse_latlng`'s `try` block, with the exceptions it can
raise: `.replace` on a non-string raises `AttributeError`; a cleaned
string that does not split on `,` into exactly two parts raises the
explicit `ValueError`; `float()` on a non-numeric part raises
`ValueError`. -/
def parseLatlngTry : Json → Except PyError (ℚ × ℚ)
  | .str s =>
    match splitOnChar ',' (cleanLatLng s) with
    | [p1, p2] =>
      match pyFloat p1, pyFloat p2 with
      | some lat, some lng => .ok (lat, lng)
      | _, _ => .error .valueError
    | _ => .error .valueError
  | _ => .error .attributeError

/-- `_parse_latlng`: the `except Exception` clause turns every error from
the body into the sentinel `(None, None)`, modelled as `none`. -/
def parse_latlng (v : Json) : Option (ℚ × ℚ) :=
  match parseLatlngTry v with
  | .ok p => some p
  | .error _ => none

/-! ### `_extract_locations` -/

/-- The epoch default used whenever a timestamp field is absent. -/
def epochStr : Json := .str "1970-01-01T00:00:00Z"

/-- A record appended to the `points` list: the dict
`{"type": "Point", "coordinates": [lng, lat], "timestamp": ts}`.  The
`"type"` entry is the literal `"Point"` at every append site, so it is
left implicit; each coordinate is a float or Python `None` (the
time-branch of the timeline loop can store the sentinel pair). -/
structure PointRecord where
  lng : Option ℚ
  lat : Option ℚ
  timestamp : Json
deriving DecidableEq

/-- A record appended to the `lines` list: the dict
`{"type": "LineString", "coordinates": line_points, "timestamps": {...}}`.
The `"type"` entry is the literal `"LineString"` at its only append site;
coordinates are the accumulated `[lng, lat]` pairs. -/
structure LineRecord where
  coordinates : List (ℚ × ℚ)
  startTime : Json
  endTime : Json
deriving DecidableEq

/-- The `if "point" in path:` half of one iteration of
`for path in obj["timelinePath"]`, threading the `line_points` list and
the state of the local variables `lat, lng`: `none` while still
unassigned (using them raises `UnboundLocalError`), `some none` after a
failed parse stored the sentinel `(None, None)`, `some (some (lat, lng))`
after a success. -/
def pathStepPoint (path : Json) (lps : List (ℚ × ℚ))
    (latlng : Option (Option (ℚ × ℚ))) :
    Except PyError (List (ℚ × ℚ) × Option (Option (ℚ × ℚ))) :=
  match pyContains path "point" with
  | .error e => .error e
  | .ok false => .ok (lps, latlng)
  | .ok true =>
    match pyGetItem path "point" with
    | .error e => .error e
    | .ok pv =>
      match parse_latlng pv with
      | some (lat, lng) => .ok (lps ++ [(lng, lat)], some (some (lat, lng)))
      | none => .ok (lps, some none)

/-- The `if "time" in path:` half of one iteration: build the standalone
point record `[lng, lat]` from the current `lat, lng` variables (reading
them unassigned raises `UnboundLocalError`, before `path.get` runs). -/
def pathStepTime (path : Json) (pts : List PointRecord)
    (latlng : Option (Option (ℚ × ℚ))) :
    Except PyError (List PointRecord) :=
  match pyContains path "time" with
  | .error e => .error e
  | .ok false => .ok pts
  | .ok true =>
    match latlng with
    | none => .error .unboundLocalError
    | some v =>
      match pyGet path "time" epochStr with
      | .error e => .error e
      | .ok ts => .ok (pts ++ [⟨v.map Prod.snd, v.map Prod.fst, ts⟩])

/-- One full iteration of `for path in obj["timelinePath"]`. -/
def pathStep (path : Json) (pts : List PointRecord) (lps : List (ℚ × ℚ))
    (latlng : Option (Option (ℚ × ℚ))) :
    Except PyError (List PointRecord × List (ℚ × ℚ) × Option (Option (ℚ × ℚ))) :=
  match pathStepPoint path lps latlng with
  | .error e => .error e
  | .ok (lps', latlng') =>
    match pathStepTime path pts latlng' with
    | .error e => .error e
    | .ok pts' => .ok (pts', lps', latlng')

/-- The whole `for path in obj["timelinePath"]` loop. -/
def timelineLoop : List Json → List PointRecord → List (ℚ × ℚ) →
    Option (Option (ℚ × ℚ)) → Except PyError (List PointRecord × List (ℚ × ℚ))
  | [], pts, lps, _ => .ok (pts, lps)
  | path :: rest, pts, lps, latlng =>
    match pathStep path pts lps latlng with
    | .error e => .error e
    | .ok (pts', lps', latlng') => timelineLoop rest pts' lps' latlng'

/-- The `elif "timelinePath" in obj` branch (reached only when neither
earlier branch matched): run the path loop with fresh `line_points` and
unassigned `lat, lng`, then append one line record when `line_points` is
non-empty. -/
def handleTimeline (kvs : List (String × Json)) (pts : List PointRecord)
    (lns : List LineRecord) :
    Except PyError (List PointRecord × List LineRecord) :=
  match lookupKey kvs "timelinePath" with
  | some tl =>
    match pyIter tl with
    | .error e => .error e
    | .ok elems =>
      match timelineLoop elems pts [] none with
      | .error e => .error e
      | .ok (pts', lps) =>
        if lps.isEmpty then .ok (pts', lns)
        else .ok (pts', lns ++ [⟨lps, getD kvs "startTime" epochStr,
                                 getD kvs "endTime" epochStr⟩])
  | none => .ok (pts, lns)

/-- The body of `_traverse` run at one dict node: the
`if`/`elif`/`elif` chain over the three recognized shapes.  The E7
branch divides both fields by `1e7`; the place branch parses the latLng
string and appends only on success; otherwise control falls through to
the timeline branch. -/
def handleNode (kvs : List (String × Json)) (pts : List PointRecord)
    (lns : List LineRecord) :
    Except PyError (List PointRecord × List LineRecord) :=
  match lookupKey kvs "latitudeE7", lookupKey kvs "longitudeE7" with
  | some latv, some lngv =>
    match pyDivE7 lngv with
    | .error e => .error e
    | .ok lngq =>
      match pyDivE7 latv with
      | .error e => .error e
      | .ok latq =>
        .ok (pts ++ [⟨some lngq, some latq, getD kvs "timestampMs" epochStr⟩], lns)
  | _, _ =>
    match lookupKey kvs "placeLocation" with
    | some pl =>
      match pyContains pl "latLng" with
      | .error e => .error e
      | .ok true =>
        match pyGetItem pl "latLng" with
        | .error e => .error e
        | .ok llv =>
          match parse_latlng llv with
          | some (latq, lngq) =>
            .ok (pts ++ [⟨some lngq, some latq, getD kvs "startTime" epochStr⟩], lns)
          | none => .ok (pts, lns)
      | .ok false => handleTimeline kvs pts lns
    | none => handleTimeline kvs pts lns

mutual

/-- `_traverse`: handle the node if it is a dict, then recurse into all
dict values; recurse into all list elements; ignore scalars. -/
def traverseJson : Json → List PointRecord → List LineRecord →
    Except PyError (List PointRecord × List LineRecord)
  | .obj kvs, pts, lns =>
    match handleNode kvs pts lns with
    | .error e => .error e
    | .ok (pts', lns') => traverseEntries kvs pts' lns'
  | .arr xs, pts, lns => traverseList xs pts lns
  | .null, pts, lns => .ok (pts, lns)
  | .bool _, pts, lns => .ok (pts, lns)
  | .num _, pts, lns => .ok (pts, lns)
  | .str _, pts, lns => .ok (pts, lns)

/-- `for value in obj.values(): _traverse(value)`. -/
def traverseEntries : List (String × Json) → List PointRecord → List LineRecord →
    Except PyError (List PointRecord × List LineRecord)
  | [], pts, lns => .ok (pts, lns)
  | (_, v) :: rest, pts, lns =>
    match traverseJson v pts lns with
    | .error e => .error e
    | .ok (pts', lns') => traverseEntries rest pts' lns'

/-- `for item in obj: _traverse(item)` on a list node. -/
def traverseList : List Json → List PointRecord → List LineRecord →
    Except PyError (List PointRecord × List LineRecord)
  | [], pts, lns => .ok (pts, lns)
  | x :: rest, pts, lns =>
    match traverseJson x pts lns with
    | .error e => .error e
    | .ok (pts', lns') => traverseList rest pts' lns'

end

/-- `_extract_locations`: run the traversal from empty sequences. -/
def extract_locations (data : Json) :
    Except PyError (List PointRecord × List LineRecord) :=
  traverseJson data [] []

/-! ### `convert_to_geojson` -/

/-- A coordinate slot as serialized by `json.dump`: a parsed float or
`null` for the Python `None` sentinel. -/
def optNum : Option ℚ → Json
  | some q => .num q
  | none => .null

/-- The Feature dict built from one point record. -/
def pointFeature (p : PointRecord) : Json :=
  .obj [("type", .str "Feature"),
        ("geometry", .obj [("type", .str "Point"),
                           ("coordinates", .arr [optNum p.lng, optNum p.lat])]),
        ("properties", .obj [("timestamp", p.timestamp)])]

/-- The Feature dict built from one line record. -/
def lineFeature (l : LineRecord) : Json :=
  .obj [("type", .str "Feature"),
        ("geometry", .obj [("type", .str "LineString"),
                           ("coordinates",
                            .arr (l.coordinates.map
                              (fun c => Json.arr [.num c.1, .num c.2])))]),
        ("properties", .obj [("startTime", l.startTime),
                             ("endTime", l.endTime)])]

/-- The two `features.append(...)` loops of `convert_to_geojson`. -/
def convert_features (points : List PointRecord) (lines : List LineRecord) :
    List Json :=
  let fs := points.foldl (fun acc p => acc ++ [pointFeature p]) []
  lines.foldl (fun acc l => acc ++ [lineFeature l]) fs

/-- The FeatureCollection value passed to `json.dump`. -/
def convert_to_geojson (points : List PointRecord) (lines : List LineRecord) :
    Json :=
  .obj [("type", .str "FeatureCollection"),
        ("features", .arr (convert_features points lines))]

/-! ### `main`

The run is modelled over oracles for the world outside the process: the
outcome of reading the input file, of `json.loads` on its content, and
of creating/writing the output file. -/

/-- How one run of `main` ended. -/
inductive RunOutcome where
  | usageError
  | ioReadError
  | jsonError
  | crashed (e : PyError)
  | noRecords
  | ioWriteError
  | success
deriving DecidableEq

/-- Observable result of one run: outcome, the process exit code, and
whether the input (resp. output) file was ever opened. -/
structure RunResult where
  outcome : RunOutcome
  exitCode : ℕ
  inputOpened : Bool
  outputOpened : Bool
deriving DecidableEq

/-- `main`, followed by `sys.exit(main())`.

* identical paths: `arg_parser.error` raises `SystemExit(2)` before any
  file is touched, so the process exits 2;
* `main` returns `None` on every other path (error prints included), and
  `sys.exit(None)` is exit code 0;
* an exception escaping `_extract_locations` is uncaught, so the
  interpreter aborts the process with exit code 1. -/
def mainRun (inputPath outputPath : String) (readResult : Except Unit String)
    (loads : String → Except Unit Json) (writeOk : Bool) : RunResult :=
  if inputPath = outputPath then
    ⟨.usageError, 2, false, false⟩
  else
    match readResult with
    | .error _ => ⟨.ioReadError, 0, true, false⟩
    | .ok content =>
      match loads content with
      | .error _ => ⟨.jsonError, 0, true, false⟩
      | .ok data =>
        match extract_locations data with
        | .error e => ⟨.crashed e, 1, true, false⟩
        | .ok (pts, lns) =>
          if pts.isEmpty && lns.isEmpty then ⟨.noRecords, 0, true, false⟩
          else if writeOk then ⟨.success, 0, true, true⟩
          else ⟨.ioWriteError, 0, true, true⟩

/-- Monotonicity statement for `traverseJson`: the output sequences extend
the input sequences. -/
def TravMono (j : Json) (pts : List PointRecord) (lns : List LineRecord) : Prop :=
  ∀ pts' lns', traverseJson j pts lns = .ok (pts', lns') →
    (∃ dp, pts' = pts ++ dp) ∧ ∃ dl, lns' = lns ++ dl

/-- Monotonicity statement for `traverseList`. -/
def TravListMono (xs : List Json) (pts : List PointRecord) (lns : List LineRecord) : Prop :=
  ∀ pts' lns', traverseList xs pts lns = .ok (pts', lns') →
    (∃ dp, pts' = pts ++ dp) ∧ ∃ dl, lns' = lns ++ dl

/-- Monotonicity statement for `traverseEntries`. -/
def TravEntriesMono (kvs : List (String × Json)) (pts : List PointRecord)
    (lns : List LineRecord) : Prop :=
  ∀ pts' lns', traverseEntries kvs pts lns = .ok (pts', lns') →
    (∃ dp, pts' = pts ++ dp) ∧ ∃ dl, lns' = lns ++ dl

/-- `Occurs j t`: the value `j` is a node of the tree `t` — `t` itself,
or a node of an element of an array, or of a value of an object. -/
inductive Occurs : Json → Json → Prop
  | refl (j : Json) : Occurs j j
  | inArr {j x : Json} {xs : List Json} :
      x ∈ xs → Occurs j x → Occurs j (.arr xs)
  | inObj {j v : Json} {k : String} {kvs : List (String × Json)} :
      (k, v) ∈ kvs → Occurs j v → Occurs j (.obj kvs)

/-! ### Helper lemmas -/

theorem foldl_append_map {α β : Type} (f : α → β) :
    ∀ (l : List α) (init : List β),
      l.foldl (fun acc x => acc ++ [f x]) init = init ++ l.map f
  | [], init => by simp
  | x :: rest, init => by
    simp only [List.foldl_cons, List.map_cons, foldl_append_map f rest]
    simp

/-- `convert_to_geojson` builds one feature per point, then one per
line, in order. -/
theorem convert_features_eq (points : List PointRecord) (lines : List LineRecord) :
    convert_features points lines =
      points.map pointFeature ++ lines.map lineFeature := by
  simp [convert_features, foldl_append_map]

theorem pathStepPoint_mono {path : Json} {lps lps' : List (ℚ × ℚ)}
    {latlng latlng' : Option (Option (ℚ × ℚ))}
    (h : pathStepPoint path lps latlng = .ok (lps', latlng')) :
    ∃ d, lps' = lps ++ d := by
  unfold pathStepPoint at h
  split at h
  · exact absurd h (by simp)
  · exact ⟨[], by simp_all⟩
  · split at h
    · exact absurd h (by simp)
    · split at h
      · simp only [Except.ok.injEq, Prod.mk.injEq] at h
        exact ⟨_, h.1.symm⟩
      · exact ⟨[], by simp_all⟩

theorem pathStepTime_mono {path : Json} {pts pts' : List PointRecord}
    {latlng : Option (Option (ℚ × ℚ))}
    (h : pathStepTime path pts latlng = .ok pts') :
    ∃ d, pts' = pts ++ d := by
  unfold pathStepTime at h
  split at h
  · exact absurd h (by simp)
  · exact ⟨[], by simp_all⟩
  · split at h
    · exact absurd h (by simp)
    · split at h
      · exact absurd h (by simp)
      · simp only [Except.ok.injEq] at h
        exact ⟨_, h.symm⟩

theorem pathStep_mono {path : Json} {pts pts' : List PointRecord}
    {lps lps' : List (ℚ × ℚ)} {latlng latlng' : Option (Option (ℚ × ℚ))}
    (h : pathStep path pts lps latlng = .ok (pts', lps', latlng')) :
    (∃ dp, pts' = pts ++ dp) ∧ ∃ dl, lps' = lps ++ dl := by
  unfold pathStep at h
  split at h
  · exact absurd h (by simp)
  · rename_i lpsm hpoint
    split at h
    · exact absurd h (by simp)
    · rename_i ptsm htime
      simp only [Except.ok.injEq, Prod.mk.injEq] at h
      obtain ⟨h1, h2, _⟩ := h
      subst h1; subst h2
      exact ⟨pathStepTime_mono htime, pathStepPoint_mono hpoint⟩

theorem timelineLoop_mono :
    ∀ {elems : List Json} {pts pts' : List PointRecord}
      {lps lps' : List (ℚ × ℚ)} {latlng : Option (Option (ℚ × ℚ))},
      timelineLoop elems pts lps latlng = .ok (pts', lps') →
      (∃ dp, pts' = pts ++ dp) ∧ ∃ dl, lps' = lps ++ dl := by
  intro elems
  induction elems with
  | nil =>
    intro pts pts' lps lps' latlng h
    simp only [timelineLoop, Except.ok.injEq, Prod.mk.injEq] at h
    exact ⟨⟨[], by simp [h.1]⟩, ⟨[], by simp [h.2]⟩⟩
  | cons path rest ih =>
    intro pts pts' lps lps' latlng h
    simp only [timelineLoop] at h
    split at h
    · exact absurd h (by simp)
    · rename_i out hstep
      obtain ⟨⟨dp1, hp1⟩, ⟨dl1, hl1⟩⟩ := pathStep_mono hstep
      obtain ⟨⟨dp2, hp2⟩, ⟨dl2, hl2⟩⟩ := ih h
      exact ⟨⟨dp1 ++ dp2, by simp [hp2, hp1]⟩, ⟨dl1 ++ dl2, by simp [hl2, hl1]⟩⟩

theorem handleTimeline_mono {kvs : List (String × Json)}
    {pts pts' : List PointRecord} {lns lns' : List LineRecord}
    (h : handleTimeline kvs pts lns = .ok (pts', lns')) :
    (∃ dp, pts' = pts ++ dp) ∧ ∃ dl, lns' = lns ++ dl := by
  unfold handleTimeline at h
  split at h
  · split at h
    · exact absurd h (by simp)
    · split at h
      · exact absurd h (by simp)
      · rename_i out hloop
        split at h
        · simp only [Except.ok.injEq, Prod.mk.injEq] at h
          obtain ⟨h1, h2⟩ := h
          subst h1
          obtain ⟨⟨dp, hp⟩, _⟩ := timelineLoop_mono hloop
          exact ⟨⟨dp, hp⟩, ⟨[], by simp [h2]⟩⟩
        · simp only [Except.ok.injEq, Prod.mk.injEq] at h
          obtain ⟨h1, h2⟩ := h
          subst h1
          obtain ⟨⟨dp, hp⟩, _⟩ := timelineLoop_mono hloop
          exact ⟨⟨dp, hp⟩, ⟨_, h2.symm⟩⟩
  · simp only [Except.ok.injEq, Prod.mk.injEq] at h
    exact ⟨⟨[], by simp [h.1]⟩, ⟨[], by simp [h.2]⟩⟩

theorem handleNode_mono {kvs : List (String × Json)}
    {pts pts' : List PointRecord} {lns lns' : List LineRecord}
    (h : handleNode kvs pts lns = .ok (pts', lns')) :
    (∃ dp, pts' = pts ++ dp) ∧ ∃ dl, lns' = lns ++ dl := by
  unfold handleNode at h
  split at h
  · split at h
    · exact absurd h (by simp)
    · split at h
      · exact absurd h (by simp)
      · simp only [Except.ok.injEq, Prod.mk.injEq] at h
        exact ⟨⟨_, h.1.symm⟩, ⟨[], by simp [h.2]⟩⟩
  · split at h
    · split at h
      · exact absurd h (by simp)
      · split at h
        · exact absurd h (by simp)
        · split at h
          · simp only [Except.ok.injEq, Prod.mk.injEq] at h
            exact ⟨⟨_, h.1.symm⟩, ⟨[], by simp [h.2]⟩⟩
          · simp only [Except.ok.injEq, Prod.mk.injEq] at h
            exact ⟨⟨[], by simp [h.1]⟩, ⟨[], by simp [h.2]⟩⟩
      · exact handleTimeline_mono h
    · exact handleTimeline_mono h

theorem traverse_mono_all : ∀ j pts lns, TravMono j pts lns := by
  refine traverseJson.induct TravMono TravListMono TravEntriesMono
    ?_ ?_ ?_ ?_ ?_ ?_ ?_ ?_ ?_ ?_ ?_ ?_ ?_
  · intro kvs pts lns e he pts' lns' h
    simp only [traverseJson, he] at h
    exact Except.noConfusion h
  · intro kvs pts lns p1 l1 hnode ih pts' lns' h
    simp only [traverseJson, hnode] at h
    obtain ⟨⟨dp1, hp1⟩, ⟨dl1, hl1⟩⟩ := handleNode_mono hnode
    obtain ⟨⟨dp2, hp2⟩, ⟨dl2, hl2⟩⟩ := ih _ _ h
    exact ⟨⟨dp1 ++ dp2, by simp [hp2, hp1]⟩, ⟨dl1 ++ dl2, by simp [hl2, hl1]⟩⟩
  · intro xs pts lns ih pts' lns' h
    simp only [traverseJson] at h
    exact ih _ _ h
  · intro pts lns pts' lns' h
    simp only [traverseJson, Except.ok.injEq, Prod.mk.injEq] at h
    exact ⟨⟨[], by simp [h.1]⟩, ⟨[], by simp [h.2]⟩⟩
  · intro _ pts lns pts' lns' h
    simp only [traverseJson, Except.ok.injEq, Prod.mk.injEq] at h
    exact ⟨⟨[], by simp [h.1]⟩, ⟨[], by simp [h.2]⟩⟩
  · intro _ pts lns pts' lns' h
    simp only [traverseJson, Except.ok.injEq, Prod.mk.injEq] at h
    exact ⟨⟨[], by simp [h.1]⟩, ⟨[], by simp [h.2]⟩⟩
  · intro _ pts lns pts' lns' h
    simp only [traverseJson, Except.ok.injEq, Prod.mk.injEq] at h
    exact ⟨⟨[], by simp [h.1]⟩, ⟨[], by simp [h.2]⟩⟩
  · intro pts lns pts' lns' h
    simp only [traverseList, Except.ok.injEq, Prod.mk.injEq] at h
    exact ⟨⟨[], by simp [h.1]⟩, ⟨[], by simp [h.2]⟩⟩
  · intro x rest pts lns e he _ pts' lns' h
    simp only [traverseList, he] at h
    exact Except.noConfusion h
  · intro x rest pts lns p1 l1 hx ih1 ih2 pts' lns' h
    simp only [traverseList, hx] at h
    obtain ⟨⟨dp1, hp1⟩, ⟨dl1, hl1⟩⟩ := ih1 _ _ hx
    obtain ⟨⟨dp2, hp2⟩, ⟨dl2, hl2⟩⟩ := ih2 _ _ h
    exact ⟨⟨dp1 ++ dp2, by simp [hp2, hp1]⟩, ⟨dl1 ++ dl2, by simp [hl2, hl1]⟩⟩
  · intro pts lns pts' lns' h
    simp only [traverseEntries, Except.ok.injEq, Prod.mk.injEq] at h
    exact ⟨⟨[], by simp [h.1]⟩, ⟨[], by simp [h.2]⟩⟩
  · intro k v rest pts lns e he _ pts' lns' h
    simp only [traverseEntries, he] at h
    exact Except.noConfusion h
  · intro k v rest pts lns p1 l1 hv ih1 ih2 pts' lns' h
    simp only [traverseEntries, hv] at h
    obtain ⟨⟨dp1, hp1⟩, ⟨dl1, hl1⟩⟩ := ih1 _ _ hv
    obtain ⟨⟨dp2, hp2⟩, ⟨dl2, hl2⟩⟩ := ih2 _ _ h
    exact ⟨⟨dp1 ++ dp2, by simp [hp2, hp1]⟩, ⟨dl1 ++ dl2, by simp [hl2, hl1]⟩⟩


theorem traverse_mono {j : Json} {pts pts' : List PointRecord}
    {lns lns' : List LineRecord} (h : traverseJson j pts lns = .ok (pts', lns')) :
    (∃ dp, pts' = pts ++ dp) ∧ ∃ dl, lns' = lns ++ dl :=
  traverse_mono_all j pts lns pts' lns' h

theorem traverseList_mono :
    ∀ {xs : List Json} {pts pts' : List PointRecord} {lns lns' : List LineRecord},
      traverseList xs pts lns = .ok (pts', lns') →
      (∃ dp, pts' = pts ++ dp) ∧ ∃ dl, lns' = lns ++ dl := by
  intro xs
  induction xs with
  | nil =>
    intro pts pts' lns lns' h
    simp only [traverseList, Except.ok.injEq, Prod.mk.injEq] at h
    exact ⟨⟨[], by simp [h.1]⟩, ⟨[], by simp [h.2]⟩⟩
  | cons x rest ih =>
    intro pts pts' lns lns' h
    simp only [traverseList] at h
    split at h
    · exact absurd h (by simp)
    · rename_i mid hx
      obtain ⟨⟨dp1, hp1⟩, ⟨dl1, hl1⟩⟩ := traverse_mono hx
      obtain ⟨⟨dp2, hp2⟩, ⟨dl2, hl2⟩⟩ := ih h
      exact ⟨⟨dp1 ++ dp2, by simp [hp2, hp1]⟩, ⟨dl1 ++ dl2, by simp [hl2, hl1]⟩⟩

theorem traverseEntries_mono :
    ∀ {kvs : List (String × Json)} {pts pts' : List PointRecord}
      {lns lns' : List LineRecord},
      traverseEntries kvs pts lns = .ok (pts', lns') →
      (∃ dp, pts' = pts ++ dp) ∧ ∃ dl, lns' = lns ++ dl := by
  intro kvs
  induction kvs with
  | nil =>
    intro pts pts' lns lns' h
    simp only [traverseEntries, Except.ok.injEq, Prod.mk.injEq] at h
    exact ⟨⟨[], by simp [h.1]⟩, ⟨[], by simp [h.2]⟩⟩
  | cons e rest ih =>
    intro pts pts' lns lns' h
    obtain ⟨k, v⟩ := e
    simp only [traverseEntries] at h
    split at h
    · exact absurd h (by simp)
    · rename_i mid hv
      obtain ⟨⟨dp1, hp1⟩, ⟨dl1, hl1⟩⟩ := traverse_mono hv
      obtain ⟨⟨dp2, hp2⟩, ⟨dl2, hl2⟩⟩ := ih h
      exact ⟨⟨dp1 ++ dp2, by simp [hp2, hp1]⟩, ⟨dl1 ++ dl2, by simp [hl2, hl1]⟩⟩

theorem mem_of_traverseJson {r : PointRecord} {j : Json}
    {pts pts' : List PointRecord} {lns lns' : List LineRecord}
    (h : traverseJson j pts lns = .ok (pts', lns')) (hr : r ∈ pts) : r ∈ pts' := by
  obtain ⟨⟨dp, hp⟩, _⟩ := traverse_mono h
  subst hp
  exact List.mem_append_left _ hr

theorem mem_of_traverseList {r : PointRecord} {xs : List Json}
    {pts pts' : List PointRecord} {lns lns' : List LineRecord}
    (h : traverseList xs pts lns = .ok (pts', lns')) (hr : r ∈ pts) : r ∈ pts' := by
  obtain ⟨⟨dp, hp⟩, _⟩ := traverseList_mono h
  subst hp
  exact List.mem_append_left _ hr

theorem mem_of_traverseEntries {r : PointRecord} {kvs : List (String × Json)}
    {pts pts' : List PointRecord} {lns lns' : List LineRecord}
    (h : traverseEntries kvs pts lns = .ok (pts', lns')) (hr : r ∈ pts) : r ∈ pts' := by
  obtain ⟨⟨dp, hp⟩, _⟩ := traverseEntries_mono h
  subst hp
  exact List.mem_append_left _ hr

theorem traverseList_mem {r : PointRecord} {x : Json} :
    ∀ {xs : List Json}, x ∈ xs →
      (∀ pts lns pts' lns', traverseJson x pts lns = .ok (pts', lns') → r ∈ pts') →
      ∀ {pts lns pts' lns'}, traverseList xs pts lns = .ok (pts', lns') → r ∈ pts' := by
  intro xs
  induction xs with
  | nil => intro hx; exact absurd hx (List.not_mem_nil x)
  | cons y rest ih =>
    intro hx hgood pts lns pts' lns' h
    simp only [traverseList] at h
    split at h
    · exact Except.noConfusion h
    · rename_i p1 l1 hy
      rcases List.mem_cons.mp hx with rfl | hx'
      · exact mem_of_traverseList h (hgood _ _ _ _ hy)
      · exact ih hx' hgood h

theorem traverseEntries_mem {r : PointRecord} {v : Json} {k : String} :
    ∀ {kvs : List (String × Json)}, (k, v) ∈ kvs →
      (∀ pts lns pts' lns', traverseJson v pts lns = .ok (pts', lns') → r ∈ pts') →
      ∀ {pts lns pts' lns'}, traverseEntries kvs pts lns = .ok (pts', lns') → r ∈ pts' := by
  intro kvs
  induction kvs with
  | nil => intro hx; exact absurd hx (List.not_mem_nil (k, v))
  | cons e rest ih =>
    intro hx hgood pts lns pts' lns' h
    obtain ⟨k', v'⟩ := e
    simp only [traverseEntries] at h
    split at h
    · exact Except.noConfusion h
    · rename_i p1 l1 hv
      rcases List.mem_cons.mp hx with heq | hx'
      · cases heq
        exact mem_of_traverseEntries h (hgood _ _ _ _ hv)
      · exact ih hx' hgood h

/-- Once a node guarantees that record `r` lands in the points output,
every successful traversal of a tree containing that node produces `r`. -/
theorem occurs_mem {r : PointRecord} :
    ∀ {node t : Json}, Occurs node t →
      (∀ pts lns pts' lns', traverseJson node pts lns = .ok (pts', lns') → r ∈ pts') →
      ∀ {pts lns pts' lns'}, traverseJson t pts lns = .ok (pts', lns') → r ∈ pts' := by
  intro node t hocc
  induction hocc with
  | refl =>
    intro hgood pts lns pts' lns' h
    exact hgood _ _ _ _ h
  | inArr hx _ ih =>
    intro hgood pts lns pts' lns' h
    simp only [traverseJson] at h
    exact traverseList_mem hx (fun p l p' l' hh => ih hgood hh) h
  | inObj hkv _ ih =>
    intro hgood pts lns pts' lns' h
    simp only [traverseJson] at h
    split at h
    · exact Except.noConfusion h
    · rename_i p1 l1 hnode
      exact traverseEntries_mem hkv (fun p l p' l' hh => ih hgood hh) h

/-- On a dict with numeric `latitudeE7` and `longitudeE7` entries, the
first branch fires and appends exactly the E7 point record. -/
theorem handleNode_e7 {kvs : List (String × Json)} {pts : List PointRecord}
    {lns : List LineRecord} {a b : ℚ}
    (hla : lookupKey kvs "latitudeE7" = some (.num a))
    (hlo : lookupKey kvs "longitudeE7" = some (.num b)) :
    handleNode kvs pts lns =
      .ok (pts ++ [⟨some (b / 10000000), some (a / 10000000),
                    getD kvs "timestampMs" epochStr⟩], lns) := by
  unfold handleNode
  rw [hla, hlo]
  rfl

theorem traverseJson_e7_mem {kvs : List (String × Json)}
    {pts pts' : List PointRecord} {lns lns' : List LineRecord} {a b : ℚ}
    (hla : lookupKey kvs "latitudeE7" = some (.num a))
    (hlo : lookupKey kvs "longitudeE7" = some (.num b))
    (h : traverseJson (.obj kvs) pts lns = .ok (pts', lns')) :
    (⟨some (b / 10000000), some (a / 10000000),
      getD kvs "timestampMs" epochStr⟩ : PointRecord) ∈ pts' := by
  simp only [traverseJson, handleNode_e7 hla hlo] at h
  exact mem_of_traverseEntries h (by simp)

/-- Any tree containing a dict node with numeric E7 latitude/longitude
entries yields, on successful extraction, the corresponding point record
with coordinates divided by `1e7`. -/
theorem extract_e7_mem {t : Json} {kvs : List (String × Json)} {a b : ℚ}
    {pts : List PointRecord} {lns : List LineRecord}
    (hocc : Occurs (.obj kvs) t)
    (hla : lookupKey kvs "latitudeE7" = some (.num a))
    (hlo : lookupKey kvs "longitudeE7" = some (.num b))
    (h : extract_locations t = .ok (pts, lns)) :
    (⟨some (b / 10000000), some (a / 10000000),
      getD kvs "timestampMs" epochStr⟩ : PointRecord) ∈ pts :=
  occurs_mem hocc (fun _ _ _ _ hh => traverseJson_e7_mem hla hlo hh) h

theorem handleTimeline_timelinePath_of_lines_changed {kvs : List (String × Json)}
    {pts pts' : List PointRecord} {lns lns' : List LineRecord}
    (h : handleTimeline kvs pts lns = .ok (pts', lns')) (hl : lns' ≠ lns) :
    (lookupKey kvs "timelinePath").isSome = true := by
  unfold handleTimeline at h
  split at h
  · rename_i tl htl
    simp [htl]
  · simp only [Except.ok.injEq, Prod.mk.injEq] at h
    exact absurd h.2.symm hl

/-! ### Claims -/

/-- C7: for every pair of extracted sequences, the assembler produces
exactly one Feature per point record followed by one Feature per line
record, each in order: Point features carry the record's coordinates and
a `properties.timestamp`; LineString features carry the coordinate list
and `properties.startTime` / `properties.endTime`; and the result is
wrapped in a FeatureCollection. -/
theorem c7_assembler_one_feature_per_record :
    ∀ (points : List PointRecord) (lines : List LineRecord),
      convert_features points lines =
        points.map (fun p => Json.obj
          [("type", .str "Feature"),
           ("geometry", .obj [("type", .str "Point"),
                              ("coordinates", .arr [optNum p.lng, optNum p.lat])]),
           ("properties", .obj [("timestamp", p.timestamp)])]) ++
        lines.map (fun l => Json.obj
          [("type", .str "Feature"),
           ("geometry", .obj [("type", .str "LineString"),
                              ("coordinates", .arr (l.coordinates.map
                                (fun c => Json.arr [.num c.1, .num c.2])))]),
           ("properties", .obj [("startTime", l.startTime),
                                ("endTime", l.endTime)])]) ∧
      convert_to_geojson points lines =
        .obj [("type", .str "FeatureCollection"),
              ("features", .arr (convert_features points lines))] := by
  intro points lines
  exact ⟨by rw [convert_features_eq]; rfl, rfl⟩

/-- C1 is violated by the code: a timeline element whose `point` string
fails to parse but which carries a `time` field produces a Point record
with `None` coordinates, and the assembler emits it as a geometry with
coordinates `[null, null]`. -/
theorem c1_null_coordinates_emitted :
    extract_locations (.obj [("timelinePath",
        .arr [.obj [("point", .str "x"), ("time", .str "1000")]])]) =
      .ok ([⟨none, none, .str "1000"⟩], []) ∧
    convert_to_geojson [⟨none, none, .str "1000"⟩] [] =
      .obj [("type", .str "FeatureCollection"),
            ("features", .arr [.obj
              [("type", .str "Feature"),
               ("geometry", .obj [("type", .str "Point"),
                                  ("coordinates", .arr [.null, .null])]),
               ("properties", .obj [("timestamp", .str "1000")])]])] := by
  exact ⟨by decide, rfl⟩

/-- C2 is violated by the code: a timeline element carrying `time` before
any `point` has been seen reads the unassigned locals `lat, lng`, so the
extractor raises `UnboundLocalError` instead of skipping the element. -/
theorem c2_time_only_element_crashes :
    extract_locations (.obj [("timelinePath",
        .arr [.obj [("time", .str "1000")]])]) =
      .error .unboundLocalError := by
  decide

/-- C3 counterexample: handling one timeline-path object appends a record
to the points sequence and a record to the lines sequence, so a single
source object contributes to both. -/
theorem c3_single_node_feeds_both_sequences :
    handleNode [("timelinePath",
        .arr [.obj [("point", .str "1°, 2°"), ("time", .str "5")]])] [] [] =
      .ok ([⟨some 2, some 1, .str "5"⟩],
           [⟨[(2, 1)], epochStr, epochStr⟩]) := by
  decide

/-- C3 amended: a source object that appends to both sequences is
necessarily handled by the timeline-path branch (it has a `timelinePath`
key and lacks the E7 pair); the E7 and place branches only ever append to
the points sequence. -/
theorem c3_amended_only_timeline_feeds_both :
    ∀ (kvs : List (String × Json)) (pts pts' : List PointRecord)
      (lns lns' : List LineRecord),
      handleNode kvs pts lns = .ok (pts', lns') →
      pts' ≠ pts → lns' ≠ lns →
      (lookupKey kvs "timelinePath").isSome = true ∧
      (lookupKey kvs "latitudeE7" = none ∨ lookupKey kvs "longitudeE7" = none) := by
  intro kvs pts pts' lns lns' h hp hl
  unfold handleNode at h
  split at h
  · split at h
    · exact Except.noConfusion h
    · split at h
      · exact Except.noConfusion h
      · simp only [Except.ok.injEq, Prod.mk.injEq] at h
        exact absurd h.2.symm hl
  · rename_i hnot
    have he7 : lookupKey kvs "latitudeE7" = none ∨
        lookupKey kvs "longitudeE7" = none := by
      cases hla : lookupKey kvs "latitudeE7" with
      | none => exact Or.inl rfl
      | some latv =>
        cases hlo : lookupKey kvs "longitudeE7" with
        | none => exact Or.inr rfl
        | some lngv => exact absurd (hnot latv lngv hla hlo) (fun f => f)
    refine ⟨?_, he7⟩
    split at h
    · split at h
      · exact Except.noConfusion h
      · split at h
        · exact Except.noConfusion h
        · split at h
          · simp only [Except.ok.injEq, Prod.mk.injEq] at h
            exact absurd h.2.symm hl
          · simp only [Except.ok.injEq, Prod.mk.injEq] at h
            exact absurd h.1.symm hp
      · exact handleTimeline_timelinePath_of_lines_changed h hl
    · exact handleTimeline_timelinePath_of_lines_changed h hl

/-- C3 amended, applied at the counterexample node. -/
theorem c3_amended_witness :
    (lookupKey [("timelinePath",
        .arr [.obj [("point", .str "1°, 2°"), ("time", .str "5")]])]
      "timelinePath").isSome = true ∧
    (lookupKey [("timelinePath",
        .arr [.obj [("point", .str "1°, 2°"), ("time", .str "5")]])]
      "latitudeE7" = none ∨
     lookupKey [("timelinePath",
        .arr [.obj [("point", .str "1°, 2°"), ("time", .str "5")]])]
      "longitudeE7" = none) :=
  c3_amended_only_timeline_feeds_both
    [("timelinePath", .arr [.obj [("point", .str "1°, 2°"), ("time", .str "5")]])]
    [] [⟨some 2, some 1, .str "5"⟩] [] [⟨[(2, 1)], epochStr, epochStr⟩]
    (by decide) (by decide) (by decide)

/-- C4 counterexample: a run that aborts on malformed JSON exits with
code 0, not a non-zero signal. -/
theorem c4_json_error_exits_zero :
    (mainRun "in.json" "out.geojson" (.ok "nonsense")
      (fun _ => .error ()) true).outcome = .jsonError ∧
    (mainRun "in.json" "out.geojson" (.ok "nonsense")
      (fun _ => .error ()) true).exitCode = 0 := by
  exact ⟨rfl, rfl⟩

/-- C4 amended: only the identical-paths abort exits non-zero (the
argument parser's code 2); aborts for unreadable input, malformed JSON,
no recognizable records, or write failure return `None` from `main`, so
`sys.exit(main())` exits 0 exactly as on success; an uncaught extractor
exception kills the process with code 1. -/
theorem c4_amended_exit_codes :
    ∀ (ip op : String) (rr : Except Unit String)
      (loads : String → Except Unit Json) (w : Bool),
      (mainRun ip op rr loads w).exitCode =
        (match (mainRun ip op rr loads w).outcome with
         | .usageError => 2
         | .crashed _ => 1
         | _ => 0) := by
  intro ip op rr loads w
  unfold mainRun
  repeat' split
  all_goals simp_all

/-- C8: whenever the extractor returns two empty sequences (for example
on the document `\x7b\x7d`), the run aborts with the no-recognizable-records
error and the output file is never opened. -/
theorem c8_no_records_abort :
    ∀ (ip op content : String) (loads : String → Except Unit Json) (w : Bool)
      (t : Json),
      ip ≠ op → loads content = .ok t →
      extract_locations t = .ok ([], []) →
      mainRun ip op (.ok content) loads w = ⟨.noRecords, 0, true, false⟩ := by
  intro ip op content loads w t hne hl he
  unfold mainRun
  rw [if_neg hne]
  simp only [hl, he, List.isEmpty_nil, Bool.and_self, if_true]

/-- C8 applied to the empty JSON document. -/
theorem c8_no_records_abort_witness :
    mainRun "history.json" "out.geojson" (.ok "\x7b\x7d")
      (fun _ => .ok (.obj [])) true = ⟨.noRecords, 0, true, false⟩ :=
  c8_no_records_abort "history.json" "out.geojson" "\x7b\x7d"
    (fun _ => .ok (.obj [])) true (.obj []) (by decide) rfl (by decide)

/-- C9: with identical input and output locations the run aborts in the
argument parser, before either file is opened. -/
theorem c9_identical_paths_abort :
    ∀ (ip op : String) (rr : Except Unit String)
      (loads : String → Except Unit Json) (w : Bool),
      ip = op →
      mainRun ip op rr loads w = ⟨.usageError, 2, false, false⟩ := by
  intro ip op rr loads w h
  unfold mainRun
  rw [if_pos h]

/-- C9 applied to a concrete identical path. -/
theorem c9_identical_paths_abort_witness :
    mainRun "same.json" "same.json" (.ok "data")
      (fun _ => .ok (.obj [])) true = ⟨.usageError, 2, false, false⟩ :=
  c9_identical_paths_abort "same.json" "same.json" (.ok "data")
    (fun _ => .ok (.obj [])) true rfl

theorem parseLatlngTry_error_isException :
    ∀ {v : Json} {e : PyError}, parseLatlngTry v = .error e →
      e.isException = true := by
  intro v e h
  cases v with
  | str s =>
    simp only [parseLatlngTry] at h
    split at h
    · split at h
      · exact Except.noConfusion h
      · injection h with h1
        subst h1
        rfl
    · injection h with h1
      subst h1
      rfl
  | null =>
    simp only [parseLatlngTry] at h
    injection h with h1
    subst h1
    rfl
  | bool b =>
    simp only [parseLatlngTry] at h
    injection h with h1
    subst h1
    rfl
  | num q =>
    simp only [parseLatlngTry] at h
    injection h with h1
    subst h1
    rfl
  | arr xs =>
    simp only [parseLatlngTry] at h
    injection h with h1
    subst h1
    rfl
  | obj kvs =>
    simp only [parseLatlngTry] at h
    injection h with h1
    subst h1
    rfl

/-- C10: `_parse_latlng` is total at its interface: on every input value
(strings or not) the `try` body either produces a pair of floats that
the function returns, or raises an error that the `except Exception`
clause catches, so the caller always receives a pair or the `(None,
None)` sentinel and never an exception. -/
theorem c10_parse_latlng_total :
    ∀ v : Json,
      (∃ p, parseLatlngTry v = .ok p ∧ parse_latlng v = some p) ∨
      (∃ e, parseLatlngTry v = .error e ∧ e.isException = true ∧
        parse_latlng v = none) := by
  intro v
  cases hb : parseLatlngTry v with
  | ok p => exact Or.inl ⟨p, rfl, by simp [parse_latlng, hb]⟩
  | error e =>
    exact Or.inr ⟨e, rfl, parseLatlngTry_error_isException hb,
      by simp [parse_latlng, hb]⟩

/-- C6: a lat/lng string parses to the pair `(lat, lng)` exactly when the
cleaned string splits on the comma into two float parts; otherwise the
parser signals no value, and the place branch then appends nothing, so
the record is dropped rather than emitted. -/
theorem c6_latlng_parse_and_drop :
    (∀ (s : String) (a b : ℚ),
       parse_latlng (.str s) = some (a, b) ↔
       ∃ p1 p2, splitOnChar ',' (cleanLatLng s) = [p1, p2] ∧
         pyFloat p1 = some a ∧ pyFloat p2 = some b) ∧
    (∀ (kvs : List (String × Json)) (pl llv : Json)
       (pts : List PointRecord) (lns : List LineRecord),
       (lookupKey kvs "latitudeE7" = none ∨
        lookupKey kvs "longitudeE7" = none) →
       lookupKey kvs "placeLocation" = some pl →
       pyContains pl "latLng" = .ok true →
       pyGetItem pl "latLng" = .ok llv →
       parse_latlng llv = none →
       handleNode kvs pts lns = .ok (pts, lns)) := by
  constructor
  · intro s a b
    rcases hsplit : splitOnChar ',' (cleanLatLng s) with _ | ⟨p1, _ | ⟨p2, _ | ⟨p3, rest⟩⟩⟩
    · simp [parse_latlng, parseLatlngTry, hsplit]
    · simp [parse_latlng, parseLatlngTry, hsplit]
    · cases hf1 : pyFloat p1 with
      | none => simp [parse_latlng, parseLatlngTry, hsplit, hf1]
      | some la =>
        cases hf2 : pyFloat p2 with
        | none => simp [parse_latlng, parseLatlngTry, hsplit, hf1, hf2]
        | some lb =>
          simp [parse_latlng, parseLatlngTry, hsplit, hf1, hf2]
          constructor
          · rintro ⟨rfl, rfl⟩
            exact ⟨p1, p2, ⟨rfl, rfl⟩, hf1, hf2⟩
          · rintro ⟨q1, q2, ⟨rfl, rfl⟩, h1, h2⟩
            rw [hf1] at h1
            rw [hf2] at h2
            exact ⟨Option.some.inj h1, Option.some.inj h2⟩
    · simp [parse_latlng, parseLatlngTry, hsplit]
  · intro kvs pl llv pts lns h7 hpl hc hgi hparse
    unfold handleNode
    split
    · rename_i latv lngv hla hlo
      rcases h7 with h | h
      · rw [h] at hla
        exact Option.noConfusion hla
      · rw [h] at hlo
        exact Option.noConfusion hlo
    · split
      · rename_i pl' hpl'
        rw [hpl] at hpl'
        injection hpl' with hpl2
        subst hpl2
        split
        · rename_i e hce
          rw [hc] at hce
          exact Except.noConfusion hce
        · split
          · rename_i e hge
            rw [hgi] at hge
            exact Except.noConfusion hge
          · rename_i llv' hgl
            rw [hgi] at hgl
            injection hgl with hgl2
            subst hgl2
            split
            · rename_i q hq hp
              rw [hparse] at hp
              exact Option.noConfusion hp
            · rfl
        · rename_i hcf
          rw [hc] at hcf
          injection hcf with hcf2
          exact Bool.noConfusion hcf2
      · rename_i hplnone
        rw [hpl] at hplnone
        exact Option.noConfusion hplnone

/-- C6 applied at a concrete unparseable place record (`latLng` is
`"x"`): nothing is appended, the record is dropped. -/
theorem c6_latlng_parse_and_drop_witness :
    handleNode [("placeLocation", .obj [("latLng", .str "x")])] [] [] =
      .ok ([], []) :=
  c6_latlng_parse_and_drop.2
    [("placeLocation", .obj [("latLng", .str "x")])]
    (.obj [("latLng", .str "x")]) (.str "x") [] []
    (by decide) (by decide) (by decide) (by decide) (by decide)

/-- C5: any input tree containing a dict with numeric `latitudeE7` and
`longitudeE7` fields yields, on successful extraction, a point record
with coordinates `(longitudeE7 / 1e7, latitudeE7 / 1e7)` whose Feature
appears in the assembled features with exactly those coordinates; and
the concrete E7 example produces exactly one Point feature with
coordinates `[5.7900171, 53.2035733]` and timestamp `"1000"`. -/
theorem c5_e7_coordinates :
    (∀ (t : Json) (kvs : List (String × Json)) (a b : ℚ)
       (pts : List PointRecord) (lns : List LineRecord),
       Occurs (.obj kvs) t →
       lookupKey kvs "latitudeE7" = some (.num a) →
       lookupKey kvs "longitudeE7" = some (.num b) →
       extract_locations t = .ok (pts, lns) →
       (⟨some (b / 10000000), some (a / 10000000),
         getD kvs "timestampMs" epochStr⟩ : PointRecord) ∈ pts ∧
       pointFeature ⟨some (b / 10000000), some (a / 10000000),
         getD kvs "timestampMs" epochStr⟩ ∈ convert_features pts lns ∧
       pointFeature ⟨some (b / 10000000), some (a / 10000000),
         getD kvs "timestampMs" epochStr⟩ =
         .obj [("type", .str "Feature"),
               ("geometry", .obj [("type", .str "Point"),
                 ("coordinates", .arr [.num (b / 10000000),
                                       .num (a / 10000000)])]),
               ("properties", .obj [("timestamp",
                 getD kvs "timestampMs" epochStr)])]) ∧
    (extract_locations (.obj [("latitudeE7", .num 532035733),
                              ("longitudeE7", .num 57900171),
                              ("timestampMs", .str "1000")]) =
       .ok ([⟨some (5.7900171 : ℚ), some (53.2035733 : ℚ), .str "1000"⟩], []) ∧
     convert_features [⟨some (5.7900171 : ℚ), some (53.2035733 : ℚ),
         .str "1000"⟩] [] =
       [.obj [("type", .str "Feature"),
              ("geometry", .obj [("type", .str "Point"),
                ("coordinates", .arr [.num (5.7900171 : ℚ),
                                      .num (53.2035733 : ℚ)])]),
              ("properties", .obj [("timestamp", .str "1000")])]]) := by
  constructor
  · intro t kvs a b pts lns hocc hla hlo hex
    have hmem := extract_e7_mem hocc hla hlo hex
    refine ⟨hmem, ?_, rfl⟩
    rw [convert_features_eq]
    exact List.mem_append_left _ (List.mem_map_of_mem pointFeature hmem)
  · constructor
    · have h1 : ((57900171 : ℚ) / 10000000) = 5.7900171 := by norm_num
      have h2 : ((532035733 : ℚ) / 10000000) = 53.2035733 := by norm_num
      rw [← h1, ← h2]
      rfl
    · rfl

/-- C5 applied at the concrete E7 example. -/
theorem c5_e7_coordinates_witness :
    (⟨some ((57900171 : ℚ) / 10000000), some ((532035733 : ℚ) / 10000000),
      getD [("latitudeE7", Json.num 532035733), ("longitudeE7", Json.num 57900171),
            ("timestampMs", Json.str "1000")] "timestampMs" epochStr⟩ : PointRecord) ∈
      [(⟨some ((57900171 : ℚ) / 10000000), some ((532035733 : ℚ) / 10000000),
        Json.str "1000"⟩ : PointRecord)] ∧
    pointFeature ⟨some ((57900171 : ℚ) / 10000000), some ((532035733 : ℚ) / 10000000),
      getD [("latitudeE7", Json.num 532035733), ("longitudeE7", Json.num 57900171),
            ("timestampMs", Json.str "1000")] "timestampMs" epochStr⟩ ∈
      convert_features [⟨some ((57900171 : ℚ) / 10000000),
        some ((532035733 : ℚ) / 10000000), Json.str "1000"⟩] [] ∧
    pointFeature ⟨some ((57900171 : ℚ) / 10000000), some ((532035733 : ℚ) / 10000000),
      getD [("latitudeE7", Json.num 532035733), ("longitudeE7", Json.num 57900171),
            ("timestampMs", Json.str "1000")] "timestampMs" epochStr⟩ =
      .obj [("type", .str "Feature"),
            ("geometry", .obj [("type", .str "Point"),
              ("coordinates", .arr [.num ((57900171 : ℚ) / 10000000),
                                    .num ((532035733 : ℚ) / 10000000)])]),
            ("properties", .obj [("timestamp",
              getD [("latitudeE7", Json.num 532035733),
                    ("longitudeE7", Json.num 57900171),
                    ("timestampMs", Json.str "1000")] "timestampMs" epochStr)])] :=
  c5_e7_coordinates.1
    (.obj [("latitudeE7", .num 532035733), ("longitudeE7", .num 57900171),
           ("timestampMs", .str "1000")])
    [("latitudeE7", .num 532035733), ("longitudeE7", .num 57900171),
     ("timestampMs", .str "1000")]
    532035733 57900171
    [⟨some ((57900171 : ℚ) / 10000000), some ((532035733 : ℚ) / 10000000),
      Json.str "1000"⟩] []
    (Occurs.refl _) (by decide) (by decide) rfl
